import Mathlib

/-!
Verification of the event validation and lifecycle model of the
flask_calendar application (src/app.py).  The shallow embedding below
translates the Python helpers (`validate_event_data`, `create_auto_event`,
`create_manual_event`, `get_event_by_id`, `save_event`) and the API
handlers (`api_events` POST, `api_event_detail` update/delete branches)
into executable Lean definitions.  Timestamps use the application's wire
format `YYYY-MM-DDTHH:MM`, so naive datetimes are modelled at minute
precision; `datetime.now()` is modelled as an explicit `now` parameter of
the same type.
-/

/-- A naive local datetime at minute precision (the precision of the
`YYYY-MM-DDTHH:MM` wire format used everywhere by the application). -/
structure DateTime where
  year : Nat
  month : Nat
  day : Nat
  hour : Nat
  minute : Nat
deriving DecidableEq, Repr

/-- Leap-year rule of the Gregorian calendar (as used by Python's
`datetime`). -/
def isLeapYear (y : Nat) : Bool :=
  (y % 4 == 0 && y % 100 != 0) || (y % 400 == 0)

/-- Number of days in a month of a given year. -/
def daysInMonth (y m : Nat) : Nat :=
  if m = 2 then (if isLeapYear y then 29 else 28)
  else if m = 4 ∨ m = 6 ∨ m = 9 ∨ m = 11 then 30
  else 31

/-- Calendar validity, mirroring what Python's `datetime` constructor
accepts (year at least `MINYEAR = 1`; the `9999 = MAXYEAR` upper bound is
enforced separately where it matters, e.g. by the 4-digit parser). -/
def ValidDT (dt : DateTime) : Prop :=
  1 ≤ dt.year ∧ 1 ≤ dt.month ∧ dt.month ≤ 12 ∧
  1 ≤ dt.day ∧ dt.day ≤ daysInMonth dt.year dt.month ∧
  dt.hour ≤ 23 ∧ dt.minute ≤ 59

instance (dt : DateTime) : Decidable (ValidDT dt) := by
  unfold ValidDT; infer_instance

/-- Mixed-radix linearisation of a datetime.  On calendar-valid values
(month ≤ 12 < 13, day ≤ 31 < 32, hour < 24, minute < 60) comparison of
keys coincides with the lexicographic field-by-field comparison used by
Python's `datetime` ordering. -/
def DateTime.key (dt : DateTime) : Nat :=
  (((dt.year * 13 + dt.month) * 32 + dt.day) * 24 + dt.hour) * 60 + dt.minute

/-- The date part of the linearisation (ignores hour and minute). -/
def DateTime.dateKey (dt : DateTime) : Nat :=
  (dt.year * 13 + dt.month) * 32 + dt.day

/-- The calendar successor of a day (time of day unchanged). -/
def DateTime.nextDay (dt : DateTime) : DateTime :=
  if dt.day < daysInMonth dt.year dt.month then { dt with day := dt.day + 1 }
  else if dt.month < 12 then { dt with month := dt.month + 1, day := 1 }
  else { dt with year := dt.year + 1, month := 1, day := 1 }

/-- Models `dt + timedelta(days=n)` on a naive datetime: the time of day
is unchanged and the date advances `n` calendar days. -/
def DateTime.addDays (dt : DateTime) : Nat → DateTime
  | 0 => dt
  | n + 1 => (dt.addDays n).nextDay

/-- Models `dt + timedelta(hours=h)` on a naive datetime. -/
def DateTime.addHours (dt : DateTime) (h : Nat) : DateTime :=
  { dt.addDays ((dt.hour + h) / 24) with hour := (dt.hour + h) % 24 }

/-- Models `dt.replace(hour := h, minute := m)` (the application also
clears seconds and microseconds, which are below the precision of this
model). -/
def DateTime.withHM (dt : DateTime) (h m : Nat) : DateTime :=
  { dt with hour := h, minute := m }

/-- The character for a decimal digit (`0 ≤ n ≤ 9`). -/
def digitChar (n : Nat) : Char := Char.ofNat (48 + n)

/-- Numeric value of a decimal digit character. -/
def digitVal (c : Char) : Nat := c.toNat - 48

/-- Whether a character is an ASCII decimal digit. -/
def isDigitChar (c : Char) : Bool := decide (48 ≤ c.toNat ∧ c.toNat ≤ 57)

/-- Parse two digit characters as a two-digit number. -/
def parse2 (a b : Char) : Option Nat :=
  if isDigitChar a && isDigitChar b then
    some (digitVal a * 10 + digitVal b)
  else none

/-- Parse four digit characters as a four-digit number. -/
def parse4 (a b c d : Char) : Option Nat :=
  if isDigitChar a && isDigitChar b && isDigitChar c && isDigitChar d then
    some (((digitVal a * 10 + digitVal b) * 10 + digitVal c) * 10 + digitVal d)
  else none

/-- Models `datetime.fromisoformat` restricted to the application's wire
format `YYYY-MM-DDTHH:MM` (the only format the app ever produces or
exchanges): `none` models the `ValueError` raised on a malformed string
or on calendar-invalid field values. -/
def parseDT (s : String) : Option DateTime :=
  match s.data with
  | [y1, y2, y3, y4, s1, m1, m2, s2, d1, d2, s3, h1, h2, s4, n1, n2] =>
    if s1 = '-' ∧ s2 = '-' ∧ s3 = 'T' ∧ s4 = ':' then
      match parse4 y1 y2 y3 y4, parse2 m1 m2, parse2 d1 d2,
            parse2 h1 h2, parse2 n1 n2 with
      | some y, some mo, some d, some h, some n =>
        let dt : DateTime := ⟨y, mo, d, h, n⟩
        if ValidDT dt then some dt else none
      | _, _, _, _, _ => none
    else none
  | _ => none

/-- Models `dt.strftime("%Y-%m-%dT%H:%M")`: zero-padded 4-digit year and
2-digit month, day, hour and minute. -/
def formatDT (dt : DateTime) : String :=
  ⟨[digitChar (dt.year / 1000), digitChar (dt.year / 100 % 10),
    digitChar (dt.year / 10 % 10), digitChar (dt.year % 10), '-',
    digitChar (dt.month / 10), digitChar (dt.month % 10), '-',
    digitChar (dt.day / 10), digitChar (dt.day % 10), 'T',
    digitChar (dt.hour / 10), digitChar (dt.hour % 10), ':',
    digitChar (dt.minute / 10), digitChar (dt.minute % 10)]⟩

/-- Whether a character is stripped by Python's `str.strip()` (the ASCII
whitespace characters; the strings handled by the app are ASCII). -/
def isSpaceChar (c : Char) : Bool :=
  decide (c = ' ' ∨ c = '\t' ∨ c = '\n' ∨ c = '\r' ∨ c = '\x0b' ∨ c = '\x0c')

/-- Models Python's `str.strip()`: drop leading and trailing whitespace. -/
def strip (s : String) : String :=
  ⟨((s.data.dropWhile isSpaceChar).reverse.dropWhile isSpaceChar).reverse⟩

/-- Python truthiness of an optional string: an absent key
(`dict.get` returning `None`) and the empty string are falsy. -/
def truthy : Option String → Bool
  | none => false
  | some s => match s.data with
    | [] => false
    | _ :: _ => true

/-- Title checks of `validate_event_data` (src/app.py lines 91-94):
`if not data.get('title') or len(data['title'].strip()) < 3: ... elif
len(data['title'].strip()) > 200: ...`. -/
def titleErrors (title : Option String) : List String :=
  if truthy title = false ∨ (strip (title.getD "")).length < 3 then
    ["Title must be at least 3 characters long"]
  else if (strip (title.getD "")).length > 200 then
    ["Title must be less than 200 characters"]
  else []

/-- Start-date checks of `validate_event_data` (src/app.py lines 97-108):
missing key, then `fromisoformat` parse (ValueError caught), then the
strict `start_dt < datetime.now()` past check. -/
def startErrors (now : DateTime) (start : Option String) : List String :=
  if truthy start = false then ["Start date and time are required"]
  else
    match parseDT (start.getD "") with
    | none => ["Invalid start date format"]
    | some start_dt =>
      if start_dt.key < now.key then ["Start dates cannot be in the past"]
      else []

/-- End-date checks of `validate_event_data` (src/app.py lines 111-124).
The whole block sits in one `try/except ValueError`: after the end string
parses, the code re-parses the start string (when `data.get('start')` is
truthy), and a `ValueError` raised by that re-parse is caught by the same
handler, which appends "Invalid end date format". -/
def endErrors (start «end» : Option String) : List String :=
  if truthy «end» = false then ["End date and time are required"]
  else
    match parseDT («end».getD "") with
    | none => ["Invalid end date format"]
    | some end_dt =>
      if truthy start = true then
        match parseDT (start.getD "") with
        | none => ["Invalid end date format"]
        | some start_dt =>
          if end_dt.key ≤ start_dt.key then ["End time must be after start time"]
          else []
      else []

/-- Description checks of `validate_event_data` (src/app.py
lines 127-130), same shape as the title checks with bounds 10/1000. -/
def descriptionErrors (description : Option String) : List String :=
  if truthy description = false ∨ (strip (description.getD "")).length < 10 then
    ["Description must be at least 10 characters long"]
  else if (strip (description.getD "")).length > 1000 then
    ["Description must be less than 1000 characters"]
  else []

/-- A request payload: the relevant keys of the form/JSON mapping, each
possibly absent (`dict.get` semantics).  Unrelated keys are not
modelled. -/
structure Data where
  schedule_type : Option String
  title : Option String
  start : Option String
  «end» : Option String
  description : Option String
deriving DecidableEq, Repr

/-- Models `validate_event_data(data, is_auto)` (src/app.py lines 64-132)
with `datetime.now()` passed explicitly as `now`.  Errors are collected
in source order: title, start, end, description. -/
def validate_event_data (now : DateTime) (data : Data) (is_auto : Bool) :
    List String :=
  if is_auto then []
  else
    titleErrors data.title ++ startErrors now data.start ++
      endErrors data.start data.«end» ++ descriptionErrors data.description

/-- A stored event dictionary.  In the Python code the `id` key is only
added at insertion time; the factories below use the placeholder `0`,
which `insertEvent` overwrites before the event is stored. -/
structure Event where
  id : Nat
  title : String
  start : String
  «end» : String
  description : String
  type : String
deriving DecidableEq, Repr

/-- View a stored event dictionary as a field mapping, as happens when
the code passes an event dict to `validate_event_data`. -/
def eventToData (ev : Event) : Data :=
  { schedule_type := none, title := some ev.title, start := some ev.start,
    «end» := some ev.«end», description := some ev.description }

/-- Models `create_auto_event()` (src/app.py lines 134-167):
`datetime.now() + timedelta(weeks=7)`, hour replaced by 09:00, end two
hours later, fixed title/description, `type = "auto"`. -/
def create_auto_event (now : DateTime) : Event :=
  let auto_date := (now.addDays 49).withHM 9 0
  { id := 0,
    title := "Auto Scheduled DR Test",
    start := formatDT auto_date,
    «end» := formatDT (auto_date.addHours 2),
    description := "Automatically scheduled Disaster Recovery Test - 7 weeks from creation date",
    type := "auto" }

/-- Models `create_manual_event(form_data)` (src/app.py lines 169-197).
The Python code indexes `form_data['title']` etc. directly, so an absent
key raises `KeyError`; that exception is modelled by `none`. -/
def create_manual_event (d : Data) : Option Event :=
  match d.title, d.start, d.«end», d.description with
  | some t, some s, some e, some ds =>
    some { id := 0, title := strip t, start := s, «end» := e,
           description := strip ds, type := "manual" }
  | _, _, _, _ => none

/-- Models `get_event_by_id(event_id)` (src/app.py lines 28-45): linear
scan, first match, `None` when absent. -/
def get_event_by_id (events : List Event) (event_id : Nat) : Option Event :=
  match events with
  | [] => none
  | ev :: rest =>
    if ev.id = event_id then some ev else get_event_by_id rest event_id

/-- Models `save_event(updated_event)` (src/app.py lines 47-63): replace
the first event whose id matches, leave the list unchanged otherwise. -/
def save_event (events : List Event) (updated_event : Event) : List Event :=
  match events with
  | [] => []
  | ev :: rest =>
    if ev.id = updated_event.id then updated_event :: rest
    else ev :: save_event rest updated_event

/-- The process-wide mutable state: the `events` list and the
`event_counter` (src/app.py lines 22-23). -/
structure Store where
  events : List Event
  event_counter : Nat
deriving DecidableEq, Repr

/-- The state at process start: `events = []`, `event_counter = 1`. -/
def Store.init : Store := ⟨[], 1⟩

/-- Models the insertion sequence `event_data["id"] = event_counter;
events.append(event_data); event_counter += 1` (src/app.py
lines 426-428). -/
def insertEvent (st : Store) (ev : Event) : Store × Event :=
  let ev' := { ev with id := st.event_counter }
  (⟨st.events ++ [ev'], st.event_counter + 1⟩, ev')

/-- Whether the payload dict is falsy (`if not data:`): no relevant key
present. -/
def Data.isEmpty (d : Data) : Bool :=
  d.schedule_type.isNone && d.title.isNone && d.start.isNone &&
    d.«end».isNone && d.description.isNone

/-- Outcome of the POST branch of `api_events` (src/app.py
lines 397-435). `keyError` models the uncaught `KeyError` escaping from
`create_manual_event` (an HTTP 500, not a handled response). -/
inductive CreateResult where
  | noData
  | keyError
  | badRequest (errors : List String)
  | created (event : Event)
deriving DecidableEq, Repr

/-- Models the POST branch of `api_events` (src/app.py lines 397-435):
reject an absent/falsy JSON body, dispatch on `schedule_type` (default
"manual"), build the event — for manual events *before* validating, as
the source does — validate, then insert on an empty error list. -/
def api_events_post (now : DateTime) (st : Store) (body : Option Data) :
    Store × CreateResult :=
  match body with
  | none => (st, .noData)
  | some data =>
    if data.isEmpty then (st, .noData)
    else if data.schedule_type.getD "manual" = "auto" then
      let event_data := create_auto_event now
      let errors := validate_event_data now (eventToData event_data) true
      if errors = [] then
        let p := insertEvent st event_data
        (p.1, .created p.2)
      else (st, .badRequest errors)
    else
      match create_manual_event data with
      | none => (st, .keyError)
      | some event_data =>
        let errors := validate_event_data now data false
        if errors = [] then
          let p := insertEvent st event_data
          (p.1, .created p.2)
        else (st, .badRequest errors)

/-- Outcome of the update branch of `api_event_detail` (src/app.py
lines 468-491). -/
inductive UpdateResult where
  | notFound
  | noData
  | badRequest (errors : List String)
  | ok (event : Event)
deriving DecidableEq, Repr

/-- Models the update branch of `api_event_detail` (src/app.py
lines 456-491): look up the event (404 when absent), reject an absent
body, validate the *raw submitted payload* with the manual rule set,
and only on an empty error list overlay the submitted fields onto the
existing record (`data.get(k, event[k])`) and store it via
`save_event`, preserving `id` and `type`. -/
def api_event_update (now : DateTime) (st : Store) (event_id : Nat)
    (body : Option Data) : Store × UpdateResult :=
  match get_event_by_id st.events event_id with
  | none => (st, .notFound)
  | some event =>
    match body with
    | none => (st, .noData)
    | some data =>
      if data.isEmpty then (st, .noData)
      else
        let errors := validate_event_data now data false
        if errors = [] then
          let updated := { event with
            title := data.title.getD event.title,
            start := data.start.getD event.start,
            «end» := data.«end».getD event.«end»,
            description := data.description.getD event.description }
          (⟨save_event st.events updated, st.event_counter⟩, .ok updated)
        else (st, .badRequest errors)

/-- Models the DELETE branch of `api_event_detail` (src/app.py
lines 456-462 and 493-498): 404 when the id is absent (store untouched),
otherwise `events = [e for e in events if e["id"] != event_id]`.  The
Bool records whether the event was found. -/
def api_event_delete (st : Store) (event_id : Nat) : Store × Bool :=
  match get_event_by_id st.events event_id with
  | none => (st, false)
  | some _ =>
    (⟨st.events.filter (fun e => e.id ≠ event_id), st.event_counter⟩, true)

/-- One request against the JSON API, for reasoning about lifecycles. -/
inductive Op where
  | create (now : DateTime) (body : Option Data)
  | update (now : DateTime) (id : Nat) (body : Option Data)
  | delete (id : Nat)
deriving Repr

/-- Run one request; the second component is the id assigned by a
successful create, if any. -/
def stepOp (st : Store) : Op → Store × Option Nat
  | .create now body =>
    let p := api_events_post now st body
    (p.1, match p.2 with | .created ev => some ev.id | _ => none)
  | .update now id body => ((api_event_update now st id body).1, none)
  | .delete id => ((api_event_delete st id).1, none)

/-- Run a sequence of requests, collecting the ids assigned by
successful creates in order. -/
def runOps (st : Store) : List Op → Store × List Nat
  | [] => (st, [])
  | op :: ops =>
    let p := stepOp st op
    let q := runOps p.1 ops
    (q.1, p.2.toList ++ q.2)

/-- The list `[c, c+1, ..., c+len-1]` of consecutive ids. -/
def idSeq (c : Nat) : Nat → List Nat
  | 0 => []
  | n + 1 => c :: idSeq (c + 1) n

/-! Component-level facts about the validator, shared by several
theorems below. -/

lemma titleErrors_cases (t : Option String) :
    titleErrors t = ["Title must be at least 3 characters long"] ∨
    titleErrors t = ["Title must be less than 200 characters"] ∨
    titleErrors t = [] := by
  unfold titleErrors
  split
  · exact Or.inl rfl
  · split
    · exact Or.inr (Or.inl rfl)
    · exact Or.inr (Or.inr rfl)

lemma descriptionErrors_cases (d : Option String) :
    descriptionErrors d = ["Description must be at least 10 characters long"] ∨
    descriptionErrors d = ["Description must be less than 1000 characters"] ∨
    descriptionErrors d = [] := by
  unfold descriptionErrors
  split
  · exact Or.inl rfl
  · split
    · exact Or.inr (Or.inl rfl)
    · exact Or.inr (Or.inr rfl)

lemma startErrors_cases (now : DateTime) (s : Option String) :
    startErrors now s = ["Start date and time are required"] ∨
    startErrors now s = ["Invalid start date format"] ∨
    startErrors now s = ["Start dates cannot be in the past"] ∨
    startErrors now s = [] := by
  unfold startErrors
  split
  · exact Or.inl rfl
  · split
    · exact Or.inr (Or.inl rfl)
    · split
      · exact Or.inr (Or.inr (Or.inl rfl))
      · exact Or.inr (Or.inr (Or.inr rfl))

lemma endErrors_cases (s e : Option String) :
    endErrors s e = ["End date and time are required"] ∨
    endErrors s e = ["Invalid end date format"] ∨
    endErrors s e = ["End time must be after start time"] ∨
    endErrors s e = [] := by
  unfold endErrors
  split
  · exact Or.inl rfl
  · split
    · exact Or.inr (Or.inl rfl)
    · split
      · split
        · exact Or.inr (Or.inl rfl)
        · split
          · exact Or.inr (Or.inr (Or.inl rfl))
          · exact Or.inr (Or.inr (Or.inr rfl))
      · exact Or.inr (Or.inr (Or.inr rfl))

lemma titleErrors_sub {x : String} {t : Option String} (h : x ∈ titleErrors t) :
    x = "Title must be at least 3 characters long" ∨
    x = "Title must be less than 200 characters" := by
  rcases titleErrors_cases t with hc | hc | hc <;> rw [hc] at h <;> simp at h <;> tauto

lemma descriptionErrors_sub {x : String} {d : Option String}
    (h : x ∈ descriptionErrors d) :
    x = "Description must be at least 10 characters long" ∨
    x = "Description must be less than 1000 characters" := by
  rcases descriptionErrors_cases d with hc | hc | hc <;> rw [hc] at h <;> simp at h <;> tauto

lemma startErrors_sub {x : String} {now : DateTime} {s : Option String}
    (h : x ∈ startErrors now s) :
    x = "Start date and time are required" ∨ x = "Invalid start date format" ∨
    x = "Start dates cannot be in the past" := by
  rcases startErrors_cases now s with hc | hc | hc | hc <;> rw [hc] at h <;> simp at h <;> tauto

lemma endErrors_sub {x : String} {s e : Option String} (h : x ∈ endErrors s e) :
    x = "End date and time are required" ∨ x = "Invalid end date format" ∨
    x = "End time must be after start time" := by
  rcases endErrors_cases s e with hc | hc | hc | hc <;> rw [hc] at h <;> simp at h <;> tauto

lemma validate_eq (now : DateTime) (data : Data) :
    validate_event_data now data false =
      titleErrors data.title ++ startErrors now data.start ++
        endErrors data.start data.«end» ++ descriptionErrors data.description := by
  simp [validate_event_data]

lemma mem_validate_iff (now : DateTime) (data : Data) (x : String) :
    x ∈ validate_event_data now data false ↔
      x ∈ titleErrors data.title ∨ x ∈ startErrors now data.start ∨
      x ∈ endErrors data.start data.«end» ∨ x ∈ descriptionErrors data.description := by
  rw [validate_eq]
  simp [List.mem_append, or_assoc]

lemma truthy_eq_true_of_not_false {o : Option String} (h : ¬ truthy o = false) :
    truthy o = true := by
  revert h; cases truthy o <;> simp

lemma mem_startErrors_past_iff (now : DateTime) (s : Option String) :
    "Start dates cannot be in the past" ∈ startErrors now s ↔
      (truthy s = true ∧ ∃ sd, parseDT (s.getD "") = some sd ∧ sd.key < now.key) := by
  unfold startErrors
  split
  · rename_i h
    constructor
    · intro hm; simp at hm
    · rintro ⟨ht, -⟩; rw [h] at ht; exact absurd ht (by decide)
  · rename_i h
    have ht := truthy_eq_true_of_not_false h
    split
    · rename_i hp
      constructor
      · intro hm; simp at hm
      · rintro ⟨-, sd, hps, -⟩; rw [hp] at hps; exact Option.noConfusion hps
    · rename_i sd hp
      split
      · rename_i hlt
        constructor
        · intro _; exact ⟨ht, sd, hp, hlt⟩
        · intro _; exact List.mem_singleton.mpr rfl
      · rename_i hlt
        constructor
        · intro hm; simp at hm
        · rintro ⟨-, sd', hps', hlt'⟩
          rw [hp] at hps'
          cases hps'
          exact absurd hlt' hlt

lemma mem_endErrors_invalid_iff (s e : Option String) :
    "Invalid end date format" ∈ endErrors s e ↔
      (truthy e = true ∧
        (parseDT (e.getD "") = none ∨
         ((∃ ed, parseDT (e.getD "") = some ed) ∧ truthy s = true ∧
          parseDT (s.getD "") = none))) := by
  unfold endErrors
  split
  · rename_i h
    constructor
    · intro hm; simp at hm
    · rintro ⟨ht, -⟩; rw [h] at ht; exact absurd ht (by decide)
  · rename_i h
    have ht := truthy_eq_true_of_not_false h
    split
    · rename_i hp
      constructor
      · intro _; exact ⟨ht, Or.inl hp⟩
      · intro _; exact List.mem_singleton.mpr rfl
    · rename_i ed hp
      split
      · rename_i hts
        split
        · rename_i hps
          constructor
          · intro _; exact ⟨ht, Or.inr ⟨⟨ed, hp⟩, hts, hps⟩⟩
          · intro _; exact List.mem_singleton.mpr rfl
        · rename_i sd hps
          split
          · constructor
            · intro hm; simp at hm
            · rintro ⟨-, hc | ⟨-, -, hps'⟩⟩
              · rw [hp] at hc; exact Option.noConfusion hc
              · rw [hps] at hps'; exact Option.noConfusion hps'
          · constructor
            · intro hm; simp at hm
            · rintro ⟨-, hc | ⟨-, -, hps'⟩⟩
              · rw [hp] at hc; exact Option.noConfusion hc
              · rw [hps] at hps'; exact Option.noConfusion hps'
      · rename_i hts
        constructor
        · intro hm; simp at hm
        · rintro ⟨-, hc | ⟨-, hts', -⟩⟩
          · rw [hp] at hc; exact Option.noConfusion hc
          · exact absurd hts' hts

lemma mem_endErrors_order_iff (s e : Option String) :
    "End time must be after start time" ∈ endErrors s e ↔
      (truthy e = true ∧ truthy s = true ∧
        ∃ ed sd, parseDT (e.getD "") = some ed ∧ parseDT (s.getD "") = some sd ∧
          ed.key ≤ sd.key) := by
  unfold endErrors
  split
  · rename_i h
    constructor
    · intro hm; simp at hm
    · rintro ⟨ht, -⟩; rw [h] at ht; exact absurd ht (by decide)
  · rename_i h
    have ht := truthy_eq_true_of_not_false h
    split
    · rename_i hp
      constructor
      · intro hm; simp at hm
      · rintro ⟨-, -, ed, sd, hpe, -, -⟩; rw [hp] at hpe; exact Option.noConfusion hpe
    · rename_i ed hp
      split
      · rename_i hts
        split
        · rename_i hps
          constructor
          · intro hm; simp at hm
          · rintro ⟨-, -, ed', sd, hpe, hps', -⟩
            rw [hps] at hps'; exact Option.noConfusion hps'
        · rename_i sd hps
          split
          · rename_i hle
            constructor
            · intro _; exact ⟨ht, hts, ed, sd, hp, hps, hle⟩
            · intro _; exact List.mem_singleton.mpr rfl
          · rename_i hle
            constructor
            · intro hm; simp at hm
            · rintro ⟨-, -, ed', sd', hpe, hps', hle'⟩
              rw [hp] at hpe; cases hpe
              rw [hps] at hps'; cases hps'
              exact absurd hle' hle
      · rename_i hts
        constructor
        · intro hm; simp at hm
        · rintro ⟨-, hts', -⟩; exact absurd hts' hts

/-- Reference instant used for the C7 counterexample. -/
def c7_now : DateTime := ⟨2030, 5, 5, 10, 0⟩

/-- C7 counterexample payload: an unparseable start together with a
perfectly well-formed end timestamp. -/
def c7_data : Data :=
  ⟨none, some "Valid Title", some "not-a-date", some "2099-01-01T10:00",
   some "a long enough description"⟩

/-- C7, counterexample: the claim says "Invalid end date format" is never
returned when the end value parses successfully, but for a payload whose
end parses and whose start is present yet unparseable, the end block
re-parses the start, the resulting ValueError is caught by the end
handler, and "Invalid end date format" is reported alongside "Invalid
start date format". -/
theorem end_format_error_despite_valid_end :
    parseDT "2099-01-01T10:00" = some ⟨2099, 1, 1, 10, 0⟩ ∧
    "Invalid end date format" ∈ validate_event_data c7_now c7_data false ∧
    validate_event_data c7_now c7_data false =
      ["Invalid start date format", "Invalid end date format"] := by
  refine ⟨by decide, ?_, by decide⟩
  decide

/-- C7, amended: "Invalid end date format" is returned exactly when the
end value is present and either fails to parse, or parses while the start
value is present but fails to parse (the start re-parse inside the end
block raises and is caught by the end handler); the ordering error is
returned exactly when both values are present and parse and end ≤ start. -/
theorem end_validation_characterization (now : DateTime) (data : Data) :
    ("Invalid end date format" ∈ validate_event_data now data false ↔
      (truthy data.«end» = true ∧
        (parseDT (data.«end».getD "") = none ∨
         ((∃ ed, parseDT (data.«end».getD "") = some ed) ∧
          truthy data.start = true ∧ parseDT (data.start.getD "") = none)))) ∧
    ("End time must be after start time" ∈ validate_event_data now data false ↔
      (truthy data.«end» = true ∧ truthy data.start = true ∧
        ∃ ed sd, parseDT (data.«end».getD "") = some ed ∧
          parseDT (data.start.getD "") = some sd ∧ ed.key ≤ sd.key)) := by
  constructor
  · rw [mem_validate_iff, ← mem_endErrors_invalid_iff]
    constructor
    · rintro (h | h | h | h)
      · rcases titleErrors_sub h with h | h <;> exact absurd h (by decide)
      · rcases startErrors_sub h with h | h | h <;> exact absurd h (by decide)
      · exact h
      · rcases descriptionErrors_sub h with h | h <;> exact absurd h (by decide)
    · intro h; exact Or.inr (Or.inr (Or.inl h))
  · rw [mem_validate_iff, ← mem_endErrors_order_iff]
    constructor
    · rintro (h | h | h | h)
      · rcases titleErrors_sub h with h | h <;> exact absurd h (by decide)
      · rcases startErrors_sub h with h | h | h <;> exact absurd h (by decide)
      · exact h
      · rcases descriptionErrors_sub h with h | h <;> exact absurd h (by decide)
    · intro h; exact Or.inr (Or.inr (Or.inl h))

/-- Reference instant used for the C8 counterexample. -/
def c8_now : DateTime := ⟨2030, 5, 5, 10, 0⟩

/-- C8 counterexample payload: the start is exactly the current
instant. -/
def c8_data : Data :=
  ⟨none, some "Valid Title", some "2030-05-05T10:00", some "2030-05-05T12:00",
   some "a long enough description"⟩

/-- C8, counterexample: the claim says a start equal to the current
instant is flagged as "Start dates cannot be in the past"; the code uses
the strict comparison `start_dt < datetime.now()`, so such a start is
accepted and the payload validates with no errors at all. -/
theorem start_equal_now_accepted :
    parseDT "2030-05-05T10:00" = some c8_now ∧
    "Start dates cannot be in the past" ∉ validate_event_data c8_now c8_data false ∧
    validate_event_data c8_now c8_data false = [] := by
  refine ⟨by decide, ?_, by decide⟩
  decide

/-- C8, amended: "Start dates cannot be in the past" is returned exactly
when the start value is present, parses, and is strictly before the
current instant; a start exactly equal to the current instant is
accepted. -/
theorem past_start_characterization (now : DateTime) (data : Data) :
    "Start dates cannot be in the past" ∈ validate_event_data now data false ↔
      (truthy data.start = true ∧
        ∃ sd, parseDT (data.start.getD "") = some sd ∧ sd.key < now.key) := by
  rw [mem_validate_iff, ← mem_startErrors_past_iff]
  constructor
  · rintro (h | h | h | h)
    · rcases titleErrors_sub h with h | h <;> exact absurd h (by decide)
    · exact h
    · rcases endErrors_sub h with h | h | h <;> exact absurd h (by decide)
    · rcases descriptionErrors_sub h with h | h <;> exact absurd h (by decide)
  · intro h; exact Or.inr (Or.inl h)

/-- Reference instant for the C4 failing input. -/
def c4_now : DateTime := ⟨2025, 1, 1, 0, 0⟩

/-- C4 failing input: a manual create request whose body omits `title`
but supplies valid values for every other field. -/
def c4_data : Data :=
  ⟨some "manual", none, some "2099-01-01T10:00", some "2099-01-01T11:00",
   some "This is a sufficiently long description"⟩

/-- C4: on a manual create request that omits `title`, the POST handler
calls `create_manual_event(data)` before validating, and the raw
`data['title']` access raises an uncaught KeyError (HTTP 500) with the
store untouched — instead of the bad-request validation response
["Title must be at least 3 characters long"] that running
`validate_event_data` on the same payload would produce. -/
theorem api_create_missing_title_keyerror :
    api_events_post c4_now Store.init (some c4_data) =
      (Store.init, CreateResult.keyError) ∧
    validate_event_data c4_now c4_data false =
      ["Title must be at least 3 characters long"] := by
  constructor
  · decide
  · decide

/-- Reference instant for the C3 failing input. -/
def c3_now : DateTime := ⟨2025, 1, 1, 0, 0⟩

/-- A stored manual event with id 1, valid under the manual rules at
`c3_now`. -/
def c3_event : Event :=
  ⟨1, "API Test DR Exercise", "2099-01-01T10:00", "2099-01-01T13:00",
   "This is a test event created via the API.", "manual"⟩

/-- Store holding `c3_event`, with the counter already advanced. -/
def c3_store : Store := ⟨[c3_event], 2⟩

/-- C3 failing input: a partial update supplying only a new title and a
new description (the shape used by the repository's own test_api.py,
test 5). -/
def c3_payload : Data :=
  ⟨none, some "Updated API Test DR Exercise", none, none,
   some "This event has been updated via the API to demonstrate the update functionality."⟩

/-- The record that would result from overlaying `c3_payload` onto
`c3_event`. -/
def c3_merged : Event :=
  { c3_event with
    title := "Updated API Test DR Exercise",
    description := "This event has been updated via the API to demonstrate the update functionality." }

/-- C3: the update handler validates the *raw partial payload* rather
than the merged record, so a title-and-description update of an existing
valid event aborts with missing-field errors and leaves the store
unchanged — even though the merged record passes the full manual rule
set, under which the claim (and the repository's own test_api.py,
test 5) says the update must be committed. -/
theorem api_update_rejects_partial_payload :
    api_event_update c3_now c3_store 1 (some c3_payload) =
      (c3_store, UpdateResult.badRequest
        ["Start date and time are required", "End date and time are required"]) ∧
    validate_event_data c3_now (eventToData c3_merged) false = [] := by
  constructor
  · decide
  · decide

/-- Reference instant for the C9 failing input. -/
def c9_now : DateTime := ⟨2025, 1, 1, 0, 0⟩

/-- A stored manual event with id 1, valid under the manual rules at
`c9_now`. -/
def c9_event : Event :=
  ⟨1, "Original Title", "2099-01-01T10:00", "2099-01-01T13:00",
   "This is the original description.", "manual"⟩

/-- Store holding `c9_event`. -/
def c9_store : Store := ⟨[c9_event], 2⟩

/-- C9 failing input: an update supplying only `{title: "New Name"}`. -/
def c9_payload : Data := ⟨none, some "New Name", none, none, none⟩

/-- C9: updating a stored event with only `{title: "New Name"}` never
succeeds: validating the raw payload flags start, end and description as
missing, the handler returns the error list, and the stored event is
completely unchanged (its title is NOT changed) — although the merged
record, the existing event with only the title overlaid, satisfies the
full manual rule set, so the claim's scenario expected the title to
change with all other fields preserved. -/
theorem api_update_title_only_rejected :
    api_event_update c9_now c9_store 1 (some c9_payload) =
      (c9_store, UpdateResult.badRequest
        ["Start date and time are required", "End date and time are required",
         "Description must be at least 10 characters long"]) ∧
    get_event_by_id ((api_event_update c9_now c9_store 1 (some c9_payload)).1).events 1 =
      some c9_event ∧
    validate_event_data c9_now (eventToData { c9_event with title := "New Name" }) false = [] := by
  refine ⟨by decide, by decide, by decide⟩

lemma truthy_some_of_data_ne {t : String} (h : t.data ≠ []) :
    truthy (some t) = true := by
  cases ht : t.data with
  | nil => exact absurd ht h
  | cons a l => simp [truthy, ht]

lemma truthy_of_parse {s : String} {dt : DateTime} (h : parseDT s = some dt) :
    truthy (some s) = true := by
  apply truthy_some_of_data_ne
  intro hnil
  unfold parseDT at h
  rw [hnil] at h
  exact Option.noConfusion h

lemma titleErrors_ok {t : String} (h3 : 3 ≤ (strip t).length)
    (h200 : (strip t).length ≤ 200) : titleErrors (some t) = [] := by
  have hne : t.data ≠ [] := by
    intro hnil
    have hstr : strip t = ⟨[]⟩ := by cases t; cases hnil; rfl
    rw [hstr] at h3
    simp [String.length] at h3
  have ht := truthy_some_of_data_ne hne
  have h1 : ¬(truthy (some t) = false ∨ (strip ((some t).getD "")).length < 3) := by
    rw [ht]; simp only [Option.getD_some]; push_neg
    exact ⟨by simp, by omega⟩
  have h2 : ¬((strip ((some t).getD "")).length > 200) := by
    simp only [Option.getD_some]; omega
  unfold titleErrors
  rw [if_neg h1, if_neg h2]

lemma descriptionErrors_ok {d : String} (h10 : 10 ≤ (strip d).length)
    (h1000 : (strip d).length ≤ 1000) : descriptionErrors (some d) = [] := by
  have hne : d.data ≠ [] := by
    intro hnil
    have hstr : strip d = ⟨[]⟩ := by cases d; cases hnil; rfl
    rw [hstr] at h10
    simp [String.length] at h10
  have ht := truthy_some_of_data_ne hne
  have h1 : ¬(truthy (some d) = false ∨ (strip ((some d).getD "")).length < 10) := by
    rw [ht]; simp only [Option.getD_some]; push_neg
    exact ⟨by simp, by omega⟩
  have h2 : ¬((strip ((some d).getD "")).length > 1000) := by
    simp only [Option.getD_some]; omega
  unfold descriptionErrors
  rw [if_neg h1, if_neg h2]

lemma startErrors_ok {now : DateTime} {s : String} {sd : DateTime}
    (hp : parseDT s = some sd) (h : ¬ sd.key < now.key) :
    startErrors now (some s) = [] := by
  unfold startErrors
  simp only [Option.getD_some, truthy_of_parse hp, hp]
  simp [h]

lemma startErrors_past {now : DateTime} {s : String} {sd : DateTime}
    (hp : parseDT s = some sd) (h : sd.key < now.key) :
    startErrors now (some s) = ["Start dates cannot be in the past"] := by
  unfold startErrors
  simp only [Option.getD_some, truthy_of_parse hp, hp]
  simp [h]

lemma endErrors_ok {s e : String} {sd ed : DateTime}
    (hps : parseDT s = some sd) (hpe : parseDT e = some ed)
    (h : ¬ ed.key ≤ sd.key) : endErrors (some s) (some e) = [] := by
  unfold endErrors
  simp only [Option.getD_some, truthy_of_parse hpe, truthy_of_parse hps, hpe, hps]
  simp [h]

lemma endErrors_order {s e : String} {sd ed : DateTime}
    (hps : parseDT s = some sd) (hpe : parseDT e = some ed)
    (h : ed.key ≤ sd.key) :
    endErrors (some s) (some e) = ["End time must be after start time"] := by
  unfold endErrors
  simp only [Option.getD_some, truthy_of_parse hpe, truthy_of_parse hps, hpe, hps]
  simp [h]

/-- C1: a manual payload whose trimmed title length lies in [3, 200],
whose trimmed description length lies in [10, 1000], and whose start and
end parse in the wire format with now < start < end, validates with an
empty error list (all boundary values included, since every bound is
non-strict). -/
theorem validate_accepts_wellformed_manual
    (now : DateTime) (data : Data) (t s e d : String) (sd ed : DateTime)
    (ht : data.title = some t) (h3 : 3 ≤ (strip t).length)
    (h200 : (strip t).length ≤ 200)
    (hs : data.start = some s) (hps : parseDT s = some sd)
    (he : data.«end» = some e) (hpe : parseDT e = some ed)
    (hd : data.description = some d) (h10 : 10 ≤ (strip d).length)
    (h1000 : (strip d).length ≤ 1000)
    (hnow : now.key < sd.key) (hse : sd.key < ed.key) :
    validate_event_data now data false = [] := by
  rw [validate_eq, ht, hs, he, hd, titleErrors_ok h3 h200,
      startErrors_ok hps (by omega), endErrors_ok hps hpe (by omega),
      descriptionErrors_ok h10 h1000]
  rfl

/-- C1 witness: the exact boundary scenario — title of 3 characters,
description of 10 characters, start one minute after now, end one minute
after start — produces zero errors. -/
theorem validate_accepts_wellformed_manual_witness :
    (3 ≤ (strip "abc").length ∧ (strip "abc").length ≤ 200 ∧
     10 ≤ (strip "abcdefghij").length ∧ (strip "abcdefghij").length ≤ 1000 ∧
     parseDT "2025-01-01T10:01" = some ⟨2025, 1, 1, 10, 1⟩ ∧
     parseDT "2025-01-01T10:02" = some ⟨2025, 1, 1, 10, 2⟩ ∧
     (⟨2025, 1, 1, 10, 0⟩ : DateTime).key < (⟨2025, 1, 1, 10, 1⟩ : DateTime).key ∧
     (⟨2025, 1, 1, 10, 1⟩ : DateTime).key < (⟨2025, 1, 1, 10, 2⟩ : DateTime).key) ∧
    validate_event_data ⟨2025, 1, 1, 10, 0⟩
      ⟨none, some "abc", some "2025-01-01T10:01", some "2025-01-01T10:02",
       some "abcdefghij"⟩ false = [] :=
  ⟨by decide,
   validate_accepts_wellformed_manual ⟨2025, 1, 1, 10, 0⟩
     ⟨none, some "abc", some "2025-01-01T10:01", some "2025-01-01T10:02",
      some "abcdefghij"⟩
     "abc" "2025-01-01T10:01" "2025-01-01T10:02" "abcdefghij"
     ⟨2025, 1, 1, 10, 1⟩ ⟨2025, 1, 1, 10, 2⟩
     rfl (by decide) (by decide) rfl (by decide) rfl (by decide) rfl (by decide)
     (by decide) (by decide) (by decide)⟩

/-- The C2 scenario payload. -/
def c2_data : Data :=
  ⟨none, some "AB", some "2024-01-01T10:00", some "2024-01-01T09:00", some "short"⟩

/-- C2: evaluated at any instant strictly after 2024-01-01T10:00, the
scenario payload yields exactly the four errors title-too-short,
start-in-the-past, end-before-start, description-too-short, in that
order; moreover, for every payload the too-long title (resp.
description) message never co-occurs with the too-short one, the error
list is the concatenation of the title, start, end and description
checks in source order, each contributing at most one message, and the
whole list has at most 5 entries. -/
theorem validate_error_order_and_scenario :
    (∀ now : DateTime, (⟨2024, 1, 1, 10, 0⟩ : DateTime).key < now.key →
      validate_event_data now c2_data false =
        ["Title must be at least 3 characters long",
         "Start dates cannot be in the past",
         "End time must be after start time",
         "Description must be at least 10 characters long"]) ∧
    (∀ (now : DateTime) (data : Data),
      ¬("Title must be at least 3 characters long" ∈ validate_event_data now data false ∧
        "Title must be less than 200 characters" ∈ validate_event_data now data false) ∧
      ¬("Description must be at least 10 characters long" ∈ validate_event_data now data false ∧
        "Description must be less than 1000 characters" ∈ validate_event_data now data false) ∧
      validate_event_data now data false =
        titleErrors data.title ++ startErrors now data.start ++
          endErrors data.start data.«end» ++ descriptionErrors data.description ∧
      (titleErrors data.title).length ≤ 1 ∧ (startErrors now data.start).length ≤ 1 ∧
      (endErrors data.start data.«end»).length ≤ 1 ∧
      (descriptionErrors data.description).length ≤ 1 ∧
      (validate_event_data now data false).length ≤ 5) := by
  constructor
  · intro now h
    have hps : parseDT "2024-01-01T10:00" = some ⟨2024, 1, 1, 10, 0⟩ := by decide
    have hpe : parseDT "2024-01-01T09:00" = some ⟨2024, 1, 1, 9, 0⟩ := by decide
    rw [validate_eq]
    show titleErrors (some "AB") ++ startErrors now (some "2024-01-01T10:00") ++
        endErrors (some "2024-01-01T10:00") (some "2024-01-01T09:00") ++
        descriptionErrors (some "short") = _
    rw [startErrors_past hps h, endErrors_order hps hpe (by decide),
        show titleErrors (some "AB") = ["Title must be at least 3 characters long"] from by decide,
        show descriptionErrors (some "short") =
          ["Description must be at least 10 characters long"] from by decide]
    rfl
  · intro now data
    have l1 : (titleErrors data.title).length ≤ 1 := by
      rcases titleErrors_cases data.title with hc | hc | hc <;> simp [hc]
    have l2 : (startErrors now data.start).length ≤ 1 := by
      rcases startErrors_cases now data.start with hc | hc | hc | hc <;> simp [hc]
    have l3 : (endErrors data.start data.«end»).length ≤ 1 := by
      rcases endErrors_cases data.start data.«end» with hc | hc | hc | hc <;> simp [hc]
    have l4 : (descriptionErrors data.description).length ≤ 1 := by
      rcases descriptionErrors_cases data.description with hc | hc | hc <;> simp [hc]
    refine ⟨?_, ?_, validate_eq now data, l1, l2, l3, l4, ?_⟩
    · rintro ⟨h1, h2⟩
      rw [mem_validate_iff] at h1 h2
      have e1 : "Title must be at least 3 characters long" ∈ titleErrors data.title := by
        rcases h1 with h | h | h | h
        · exact h
        · rcases startErrors_sub h with h | h | h <;> exact absurd h (by decide)
        · rcases endErrors_sub h with h | h | h <;> exact absurd h (by decide)
        · rcases descriptionErrors_sub h with h | h <;> exact absurd h (by decide)
      have e2 : "Title must be less than 200 characters" ∈ titleErrors data.title := by
        rcases h2 with h | h | h | h
        · exact h
        · rcases startErrors_sub h with h | h | h <;> exact absurd h (by decide)
        · rcases endErrors_sub h with h | h | h <;> exact absurd h (by decide)
        · rcases descriptionErrors_sub h with h | h <;> exact absurd h (by decide)
      rcases titleErrors_cases data.title with hc | hc | hc <;>
        rw [hc] at e1 e2 <;> simp at e1 e2
    · rintro ⟨h1, h2⟩
      rw [mem_validate_iff] at h1 h2
      have e1 : "Description must be at least 10 characters long" ∈
          descriptionErrors data.description := by
        rcases h1 with h | h | h | h
        · rcases titleErrors_sub h with h | h <;> exact absurd h (by decide)
        · rcases startErrors_sub h with h | h | h <;> exact absurd h (by decide)
        · rcases endErrors_sub h with h | h | h <;> exact absurd h (by decide)
        · exact h
      have e2 : "Description must be less than 1000 characters" ∈
          descriptionErrors data.description := by
        rcases h2 with h | h | h | h
        · rcases titleErrors_sub h with h | h <;> exact absurd h (by decide)
        · rcases startErrors_sub h with h | h | h <;> exact absurd h (by decide)
        · rcases endErrors_sub h with h | h | h <;> exact absurd h (by decide)
        · exact h
      rcases descriptionErrors_cases data.description with hc | hc | hc <;>
        rw [hc] at e1 e2 <;> simp at e1 e2
    · rw [validate_eq]
      simp only [List.length_append]
      omega

/-- C2 witness: the scenario evaluated at the concrete instant
2025-06-01T09:30. -/
theorem validate_error_order_and_scenario_witness :
    (⟨2024, 1, 1, 10, 0⟩ : DateTime).key < (⟨2025, 6, 1, 9, 30⟩ : DateTime).key ∧
    validate_event_data ⟨2025, 6, 1, 9, 30⟩ c2_data false =
      ["Title must be at least 3 characters long",
       "Start dates cannot be in the past",
       "End time must be after start time",
       "Description must be at least 10 characters long"] :=
  ⟨by decide, validate_error_order_and_scenario.1 ⟨2025, 6, 1, 9, 30⟩ (by decide)⟩

lemma get_event_by_id_filter (events : List Event) (event_id : Nat) :
    get_event_by_id (events.filter (fun e => e.id ≠ event_id)) event_id = none := by
  induction events with
  | nil => rfl
  | cons ev rest ih =>
    by_cases h : ev.id = event_id
    · simpa [List.filter_cons, h] using ih
    · simpa [List.filter_cons, h, get_event_by_id] using ih

lemma api_event_delete_not_found {st : Store} {event_id : Nat}
    (h : get_event_by_id st.events event_id = none) :
    api_event_delete st event_id = (st, false) := by
  unfold api_event_delete
  rw [h]

/-- A stored event used to witness the delete/find claim. -/
def c10_event : Event :=
  ⟨1, "Some Event", "2099-01-01T10:00", "2099-01-01T12:00",
   "A description of this event.", "manual"⟩

/-- Store holding `c10_event`. -/
def c10_store : Store := ⟨[c10_event], 2⟩

/-- C10: deleting an id and then looking it up always yields the absence
marker `none` (lookup is total and never throws); deleting an id that is
absent from the store returns not-found and leaves the store unchanged;
and deletion is idempotent at the store level. -/
theorem delete_then_find_none (st : Store) (event_id : Nat) :
    get_event_by_id ((api_event_delete st event_id).1).events event_id = none ∧
    (get_event_by_id st.events event_id = none →
      api_event_delete st event_id = (st, false)) ∧
    (api_event_delete (api_event_delete st event_id).1 event_id).1 =
      (api_event_delete st event_id).1 := by
  have hfind :
      get_event_by_id ((api_event_delete st event_id).1).events event_id = none := by
    unfold api_event_delete
    cases hg : get_event_by_id st.events event_id with
    | none => simp only [hg]
    | some ev => simp only [hg]; exact get_event_by_id_filter st.events event_id
  refine ⟨hfind, api_event_delete_not_found, ?_⟩
  rw [api_event_delete_not_found hfind]

/-- C10 witness: deleting the stored event 1 makes it unfindable, and
deleting the absent id 7 returns not-found with the store unchanged. -/
theorem delete_then_find_none_witness :
    get_event_by_id ((api_event_delete c10_store 1).1).events 1 = none ∧
    get_event_by_id c10_store.events 7 = none ∧
    api_event_delete c10_store 7 = (c10_store, false) :=
  ⟨(delete_then_find_none c10_store 1).1, by decide,
   (delete_then_find_none c10_store 7).2.1 (by decide)⟩

/-- Invariant of the store: every stored id is below the counter, and
the stored ids are strictly increasing in insertion order. -/
def StoreInv (st : Store) : Prop :=
  (∀ e ∈ st.events, e.id < st.event_counter) ∧
  (st.events.map Event.id).Pairwise (· < ·)

lemma save_event_map_id (events : List Event) (u : Event) :
    (save_event events u).map Event.id = events.map Event.id := by
  induction events with
  | nil => rfl
  | cons ev rest ih =>
    unfold save_event
    by_cases h : ev.id = u.id
    · simp [h]
    · simp [h, ih]

lemma insertEvent_inv {st : Store} (h : StoreInv st) (ev : Event) :
    StoreInv (insertEvent st ev).1 := by
  obtain ⟨hb, hp⟩ := h
  unfold StoreInv insertEvent
  constructor
  · intro e he
    simp only at he
    rcases List.mem_append.mp he with he | he
    · exact lt_trans (hb e he) (Nat.lt_succ_self _)
    · rcases List.mem_singleton.mp he with rfl
      exact Nat.lt_succ_self _
  · simp only [List.map_append, List.pairwise_append]
    refine ⟨hp, List.pairwise_singleton _ _, ?_⟩
    intro a ha b hb'
    simp only [List.map_cons, List.map_nil, List.mem_singleton] at hb'
    subst hb'
    obtain ⟨e, he, rfl⟩ := List.mem_map.mp ha
    exact hb e he

lemma api_event_update_frame (now : DateTime) (st : Store) (event_id : Nat)
    (body : Option Data) :
    (api_event_update now st event_id body).1.events.map Event.id =
      st.events.map Event.id ∧
    (api_event_update now st event_id body).1.event_counter = st.event_counter := by
  unfold api_event_update
  cases hg : get_event_by_id st.events event_id with
  | none => exact ⟨rfl, rfl⟩
  | some ev =>
    cases body with
    | none => exact ⟨rfl, rfl⟩
    | some data =>
      by_cases he : data.isEmpty
      · simp [he]
      · simp only [he, if_false, Bool.false_eq_true]
        split
        · exact ⟨save_event_map_id st.events _, rfl⟩
        · exact ⟨rfl, rfl⟩

lemma StoreInv_update (now : DateTime) (st : Store) (event_id : Nat)
    (body : Option Data) (h : StoreInv st) :
    StoreInv (api_event_update now st event_id body).1 := by
  obtain ⟨hmap, hcnt⟩ := api_event_update_frame now st event_id body
  obtain ⟨hb, hp⟩ := h
  constructor
  · intro e he
    have : e.id ∈ (api_event_update now st event_id body).1.events.map Event.id :=
      List.mem_map.mpr ⟨e, he, rfl⟩
    rw [hmap] at this
    obtain ⟨e', he', hid⟩ := List.mem_map.mp this
    rw [hcnt, ← hid]
    exact hb e' he'
  · rw [hmap]
    exact hp

lemma StoreInv_delete (st : Store) (event_id : Nat) (h : StoreInv st) :
    StoreInv (api_event_delete st event_id).1 ∧
    (api_event_delete st event_id).1.event_counter = st.event_counter := by
  obtain ⟨hb, hp⟩ := h
  unfold api_event_delete
  cases hg : get_event_by_id st.events event_id with
  | none => exact ⟨⟨hb, hp⟩, rfl⟩
  | some ev =>
    refine ⟨⟨?_, ?_⟩, rfl⟩
    · intro e he
      exact hb e (List.mem_of_mem_filter he)
    · exact hp.sublist ((List.filter_sublist st.events).map Event.id)


lemma post_insert_case {st : Store} (h : StoreInv st) (errors : List String)
    (event_data : Event) :
    StoreInv (if errors = [] then
        ((insertEvent st event_data).1, CreateResult.created (insertEvent st event_data).2)
      else (st, CreateResult.badRequest errors)).1 ∧
    ((∃ ev, (if errors = [] then
          ((insertEvent st event_data).1, CreateResult.created (insertEvent st event_data).2)
        else (st, CreateResult.badRequest errors)).2 = CreateResult.created ev ∧
        ev.id = st.event_counter ∧
        (if errors = [] then
          ((insertEvent st event_data).1, CreateResult.created (insertEvent st event_data).2)
        else (st, CreateResult.badRequest errors)).1.event_counter = st.event_counter + 1) ∨
     ((if errors = [] then
          ((insertEvent st event_data).1, CreateResult.created (insertEvent st event_data).2)
        else (st, CreateResult.badRequest errors)).1 = st ∧
      ∀ ev, (if errors = [] then
          ((insertEvent st event_data).1, CreateResult.created (insertEvent st event_data).2)
        else (st, CreateResult.badRequest errors)).2 ≠ CreateResult.created ev)) := by
  by_cases hv : errors = []
  · rw [if_pos hv]
    exact ⟨insertEvent_inv h _, Or.inl ⟨_, rfl, rfl, rfl⟩⟩
  · rw [if_neg hv]
    exact ⟨h, Or.inr ⟨rfl, fun ev hc => CreateResult.noConfusion hc⟩⟩

lemma api_events_post_spec (now : DateTime) (st : Store) (body : Option Data)
    (h : StoreInv st) :
    StoreInv (api_events_post now st body).1 ∧
    ((∃ ev, (api_events_post now st body).2 = CreateResult.created ev ∧
        ev.id = st.event_counter ∧
        (api_events_post now st body).1.event_counter = st.event_counter + 1) ∨
     ((api_events_post now st body).1 = st ∧
        ∀ ev, (api_events_post now st body).2 ≠ CreateResult.created ev)) := by
  cases body with
  | none => exact ⟨h, Or.inr ⟨rfl, fun ev hc => CreateResult.noConfusion hc⟩⟩
  | some data =>
    simp only [api_events_post]
    by_cases he : data.isEmpty = true
    · rw [if_pos he]
      exact ⟨h, Or.inr ⟨rfl, fun ev hc => CreateResult.noConfusion hc⟩⟩
    · rw [if_neg he]
      by_cases hs : data.schedule_type.getD "manual" = "auto"
      · rw [if_pos hs]
        exact post_insert_case h _ _
      · rw [if_neg hs]
        cases hcm : create_manual_event data with
        | none => exact ⟨h, Or.inr ⟨rfl, fun ev hc => CreateResult.noConfusion hc⟩⟩
        | some event_data => exact post_insert_case h _ _

lemma stepOp_spec (st : Store) (op : Op) (h : StoreInv st) :
    StoreInv (stepOp st op).1 ∧
    (((stepOp st op).2 = none ∧ (stepOp st op).1.event_counter = st.event_counter) ∨
     ((stepOp st op).2 = some st.event_counter ∧
      (stepOp st op).1.event_counter = st.event_counter + 1)) := by
  cases op with
  | create now body =>
    obtain ⟨h1, hd⟩ := api_events_post_spec now st body h
    rcases hd with ⟨ev, hc, hid, hcnt⟩ | ⟨hst, hnc⟩
    · refine ⟨h1, Or.inr ⟨?_, hcnt⟩⟩
      show (match (api_events_post now st body).2 with
        | CreateResult.created ev => some ev.id
        | _ => none) = some st.event_counter
      rw [hc]
      show some ev.id = some st.event_counter
      rw [hid]
    · refine ⟨h1, Or.inl ⟨?_, ?_⟩⟩
      · show (match (api_events_post now st body).2 with
          | CreateResult.created ev => some ev.id
          | _ => none) = none
        cases hc : (api_events_post now st body).2 with
        | created ev => exact absurd hc (hnc ev)
        | noData => rfl
        | keyError => rfl
        | badRequest e => rfl
      · show (api_events_post now st body).1.event_counter = st.event_counter
        rw [hst]
  | update now id body =>
    exact ⟨StoreInv_update now st id body h,
      Or.inl ⟨rfl, (api_event_update_frame now st id body).2⟩⟩
  | delete id =>
    obtain ⟨hi, hc⟩ := StoreInv_delete st id h
    exact ⟨hi, Or.inl ⟨rfl, hc⟩⟩

lemma idSeq_length (c n : Nat) : (idSeq c n).length = n := by
  induction n generalizing c with
  | zero => rfl
  | succ n ih => simp [idSeq, ih]

lemma runOps_spec (ops : List Op) : ∀ st : Store, StoreInv st →
    (runOps st ops).2 = idSeq st.event_counter (runOps st ops).2.length ∧
    StoreInv (runOps st ops).1 := by
  induction ops with
  | nil => exact fun st h => ⟨rfl, h⟩
  | cons op ops ih =>
    intro st h
    obtain ⟨h1, hd⟩ := stepOp_spec st op h
    obtain ⟨ih1, ih2⟩ := ih (stepOp st op).1 h1
    refine ⟨?_, ih2⟩
    show (stepOp st op).2.toList ++ (runOps (stepOp st op).1 ops).2 =
      idSeq st.event_counter
        ((stepOp st op).2.toList ++ (runOps (stepOp st op).1 ops).2).length
    rcases hd with ⟨ha, hc⟩ | ⟨ha, hc⟩
    · rw [ha]
      simp only [Option.toList_none, List.nil_append]
      rw [ih1, hc, idSeq_length]
    · rw [ha]
      simp only [Option.toList_some, List.singleton_append, List.length_cons]
      rw [ih1, hc, idSeq_length]
      rfl

lemma idSeq_le_of_mem {c n x : Nat} (h : x ∈ idSeq c n) : c ≤ x := by
  induction n generalizing c with
  | zero => exact absurd h (List.not_mem_nil x)
  | succ n ih =>
    rcases List.mem_cons.mp h with rfl | hm
    · exact Nat.le_refl x
    · exact Nat.le_of_succ_le (ih hm)

lemma idSeq_pairwise (c n : Nat) : (idSeq c n).Pairwise (· < ·) := by
  induction n generalizing c with
  | zero => exact List.Pairwise.nil
  | succ n ih =>
    exact List.Pairwise.cons
      (fun x hx => Nat.lt_of_succ_le (idSeq_le_of_mem hx)) (ih (c + 1))

/-- C5: across any sequence of API create, update and delete requests
starting from the initial store, the ids assigned by successful creates
form exactly the consecutive sequence 1, 2, ..., k — they start at 1,
are strictly increasing in creation order even when earlier events are
deleted in between, and are never reused — and the ids stored at any
point are strictly increasing in insertion order and therefore unique
across the store. -/
theorem insert_ids_strictly_increasing (ops : List Op) :
    (runOps Store.init ops).2 = idSeq 1 (runOps Store.init ops).2.length ∧
    (runOps Store.init ops).2.Pairwise (· < ·) ∧
    ((runOps Store.init ops).1.events.map Event.id).Pairwise (· < ·) ∧
    ((runOps Store.init ops).1.events.map Event.id).Nodup := by
  have hinv : StoreInv Store.init :=
    ⟨fun e he => absurd he (List.not_mem_nil e), List.Pairwise.nil⟩
  obtain ⟨h1, h2⟩ := runOps_spec ops Store.init hinv
  refine ⟨h1, ?_, h2.2, ?_⟩
  · rw [h1]
    exact idSeq_pairwise _ _
  · exact h2.2.imp Nat.ne_of_lt

lemma digitChar_isDigit : ∀ k, k < 10 → isDigitChar (digitChar k) = true := by decide

lemma digitVal_digitChar : ∀ k, k < 10 → digitVal (digitChar k) = k := by decide

lemma daysInMonth_le (y m : Nat) : daysInMonth y m ≤ 31 := by
  unfold daysInMonth
  split
  · split <;> omega
  · split <;> omega

lemma daysInMonth_pos (y m : Nat) : 1 ≤ daysInMonth y m := by
  unfold daysInMonth
  split
  · split <;> omega
  · split <;> omega

lemma parse2_digits {n : Nat} (h : n ≤ 99) :
    parse2 (digitChar (n / 10)) (digitChar (n % 10)) = some n := by
  have h1 : n / 10 < 10 := by omega
  have h2 : n % 10 < 10 := by omega
  unfold parse2
  rw [digitChar_isDigit _ h1, digitChar_isDigit _ h2]
  simp only [Bool.and_self, if_true]
  rw [digitVal_digitChar _ h1, digitVal_digitChar _ h2]
  have : n / 10 * 10 + n % 10 = n := by omega
  rw [this]

lemma parse4_digits {n : Nat} (h : n ≤ 9999) :
    parse4 (digitChar (n / 1000)) (digitChar (n / 100 % 10))
      (digitChar (n / 10 % 10)) (digitChar (n % 10)) = some n := by
  have h1 : n / 1000 < 10 := by omega
  have h2 : n / 100 % 10 < 10 := by omega
  have h3 : n / 10 % 10 < 10 := by omega
  have h4 : n % 10 < 10 := by omega
  unfold parse4
  rw [digitChar_isDigit _ h1, digitChar_isDigit _ h2, digitChar_isDigit _ h3,
    digitChar_isDigit _ h4]
  simp only [Bool.and_self, if_true]
  rw [digitVal_digitChar _ h1, digitVal_digitChar _ h2, digitVal_digitChar _ h3,
    digitVal_digitChar _ h4]
  have : ((n / 1000 * 10 + n / 100 % 10) * 10 + n / 10 % 10) * 10 + n % 10 = n := by
    omega
  rw [this]

lemma parseDT_formatDT {dt : DateTime} (h : ValidDT dt) (hy : dt.year ≤ 9999) :
    parseDT (formatDT dt) = some dt := by
  obtain ⟨h1, h2, h3, h4, h5, h6, h7⟩ := h
  have hdim := daysInMonth_le dt.year dt.month
  have hm : dt.month ≤ 99 := by omega
  have hd : dt.day ≤ 99 := by omega
  have hh : dt.hour ≤ 99 := by omega
  have hmin : dt.minute ≤ 99 := by omega
  simp only [parseDT, formatDT, parse4_digits hy, parse2_digits hm, parse2_digits hd,
    parse2_digits hh, parse2_digits hmin]
  rw [if_pos (⟨trivial, trivial, trivial, trivial⟩ : True ∧ True ∧ True ∧ True)]
  rw [if_pos (show ValidDT ⟨dt.year, dt.month, dt.day, dt.hour, dt.minute⟩ from
    ⟨h1, h2, h3, h4, h5, h6, h7⟩)]

lemma nextDay_valid {d : DateTime} (h : ValidDT d) : ValidDT d.nextDay := by
  obtain ⟨h1, h2, h3, h4, h5, h6, h7⟩ := h
  unfold DateTime.nextDay
  split
  · rename_i hlt
    exact ⟨h1, h2, h3, (show 1 ≤ d.day + 1 by omega),
      (show d.day + 1 ≤ daysInMonth d.year d.month by omega), h6, h7⟩
  · split
    · rename_i hm12
      exact ⟨h1, (show 1 ≤ d.month + 1 by omega), (show d.month + 1 ≤ 12 by omega),
        Nat.le_refl 1, daysInMonth_pos _ _, h6, h7⟩
    · exact ⟨(show 1 ≤ d.year + 1 by omega), Nat.le_refl 1, (show (1:Nat) ≤ 12 by omega),
        Nat.le_refl 1, daysInMonth_pos _ _, h6, h7⟩

lemma nextDay_dateKey_lt {d : DateTime} (h : ValidDT d) :
    d.dateKey < d.nextDay.dateKey := by
  obtain ⟨h1, h2, h3, h4, h5, h6, h7⟩ := h
  have hdim := daysInMonth_le d.year d.month
  unfold DateTime.nextDay DateTime.dateKey
  split
  · show (d.year * 13 + d.month) * 32 + d.day <
      (d.year * 13 + d.month) * 32 + (d.day + 1)
    omega
  · split
    · show (d.year * 13 + d.month) * 32 + d.day <
        (d.year * 13 + (d.month + 1)) * 32 + 1
      omega
    · show (d.year * 13 + d.month) * 32 + d.day <
        ((d.year + 1) * 13 + 1) * 32 + 1
      omega

lemma addDays_le49 {d0 : DateTime} (h : ValidDT d0) :
    ∀ k, k ≤ 49 → ValidDT (d0.addDays k) ∧
      ((d0.addDays k).year = d0.year ∨
       ((d0.addDays k).year = d0.year + 1 ∧
        (((d0.addDays k).month = 1 ∧ (d0.addDays k).day ≤ k) ∨
         ((d0.addDays k).month = 2 ∧ (d0.addDays k).day + 31 ≤ k)))) := by
  intro k
  induction k with
  | zero => exact fun _ => ⟨h, Or.inl rfl⟩
  | succ k ih =>
    intro hk
    obtain ⟨hv, hy⟩ := ih (by omega)
    obtain ⟨v1, v2, v3, v4, v5, v6, v7⟩ := hv
    refine ⟨nextDay_valid ⟨v1, v2, v3, v4, v5, v6, v7⟩, ?_⟩
    have haux : d0.addDays (k + 1) = (d0.addDays k).nextDay := rfl
    rw [haux]
    unfold DateTime.nextDay
    split
    · rename_i hlt
      rcases hy with hy | ⟨hy1, hy2 | hy2⟩
      · exact Or.inl hy
      · exact Or.inr ⟨hy1, Or.inl ⟨hy2.1,
          (show (d0.addDays k).day + 1 ≤ k + 1 by omega)⟩⟩
      · exact Or.inr ⟨hy1, Or.inr ⟨hy2.1,
          (show (d0.addDays k).day + 1 + 31 ≤ k + 1 by omega)⟩⟩
    · split
      · rename_i hnd hm12
        rcases hy with hy | ⟨hy1, hy2 | hy2⟩
        · exact Or.inl hy
        · -- the month was January with day = 31; roll over to February 1
          rw [hy2.1] at hnd
          have h31 : daysInMonth (d0.addDays k).year 1 = 31 := rfl
          rw [h31] at hnd
          refine Or.inr ⟨hy1, Or.inr ⟨?_, ?_⟩⟩
          · show (d0.addDays k).month + 1 = 2
            omega
          · show 1 + 31 ≤ k + 1
            omega
        · -- the month was February; its day stays below 28 within 49 steps
          exfalso
          have hdim2 : 28 ≤ daysInMonth (d0.addDays k).year (d0.addDays k).month := by
            rw [hy2.1]
            unfold daysInMonth
            split
            · split <;> omega
            · omega
          omega
      · rename_i hnd hnm
        rcases hy with hy | ⟨hy1, hy2 | hy2⟩
        · refine Or.inr ⟨?_, Or.inl ⟨rfl, (show (1:Nat) ≤ k + 1 by omega)⟩⟩
          show (d0.addDays k).year + 1 = d0.year + 1
          omega
        · exact absurd (show (d0.addDays k).month < 12 by omega) hnm
        · exact absurd (show (d0.addDays k).month < 12 by omega) hnm

lemma addDays_dateKey_le {d0 : DateTime} (h : ValidDT d0) :
    ∀ k, k ≤ 49 → d0.dateKey ≤ (d0.addDays k).dateKey := by
  intro k
  induction k with
  | zero => exact fun _ => Nat.le_refl _
  | succ k ih =>
    intro hk
    have hv := (addDays_le49 h k (by omega)).1
    exact Nat.le_trans (ih (by omega)) (Nat.le_of_lt (nextDay_dateKey_lt hv))

lemma addDays49_dateKey_lt {d0 : DateTime} (h : ValidDT d0) :
    d0.dateKey < (d0.addDays 49).dateKey := by
  have h48 := addDays_dateKey_le h 48 (by omega)
  have hv := (addDays_le49 h 48 (by omega)).1
  exact Nat.lt_of_le_of_lt h48 (nextDay_dateKey_lt hv)

lemma key_eq (d : DateTime) :
    d.key = d.dateKey * 1440 + d.hour * 60 + d.minute := by
  unfold DateTime.key DateTime.dateKey
  ring

lemma key_lt_of_dateKey_lt {a b : DateTime} (hh : a.hour ≤ 23) (hm : a.minute ≤ 59)
    (h : a.dateKey < b.dateKey) : a.key < b.key := by
  rw [key_eq, key_eq]
  omega

lemma withHM_valid {d : DateTime} (h : ValidDT d) {hh mm : Nat}
    (h1 : hh ≤ 23) (h2 : mm ≤ 59) : ValidDT (d.withHM hh mm) := by
  obtain ⟨a1, a2, a3, a4, a5, a6, a7⟩ := h
  unfold DateTime.withHM
  exact ⟨a1, a2, a3, a4, a5, h1, h2⟩

lemma addHours_no_roll {d : DateTime} {k : Nat} (hk : d.hour + k ≤ 23) :
    d.addHours k = ⟨d.year, d.month, d.day, d.hour + k, d.minute⟩ := by
  unfold DateTime.addHours
  have hdiv : (d.hour + k) / 24 = 0 := by omega
  have hmod : (d.hour + k) % 24 = d.hour + k := by omega
  rw [hdiv, hmod]
  rfl

lemma withHM_year (d : DateTime) (hh mm : Nat) : (d.withHM hh mm).year = d.year := rfl

lemma withHM_month (d : DateTime) (hh mm : Nat) : (d.withHM hh mm).month = d.month := rfl

lemma withHM_day (d : DateTime) (hh mm : Nat) : (d.withHM hh mm).day = d.day := rfl

lemma withHM_hour (d : DateTime) (hh mm : Nat) : (d.withHM hh mm).hour = hh := rfl

lemma withHM_minute (d : DateTime) (hh mm : Nat) : (d.withHM hh mm).minute = mm := rfl

lemma withHM_dateKey (d : DateTime) (hh mm : Nat) :
    (d.withHM hh mm).dateKey = d.dateKey := rfl

lemma mk_year (y mo d hh mm : Nat) : (DateTime.mk y mo d hh mm).year = y := rfl

lemma mk_hour (y mo d hh mm : Nat) : (DateTime.mk y mo d hh mm).hour = hh := rfl

lemma mk_minute (y mo d hh mm : Nat) : (DateTime.mk y mo d hh mm).minute = mm := rfl

lemma mk_dateKey (y mo d hh mm : Nat) :
    (DateTime.mk y mo d hh mm).dateKey = (y * 13 + mo) * 32 + d := rfl

lemma dateKey_def (d : DateTime) :
    d.dateKey = (d.year * 13 + d.month) * 32 + d.day := rfl

lemma validDT_mk_of {y mo d hh mm : Nat} (h1 : 1 ≤ y) (h2 : 1 ≤ mo) (h3 : mo ≤ 12)
    (h4 : 1 ≤ d) (h5 : d ≤ daysInMonth y mo) (h6 : hh ≤ 23) (h7 : mm ≤ 59) :
    ValidDT ⟨y, mo, d, hh, mm⟩ := ⟨h1, h2, h3, h4, h5, h6, h7⟩

/-- C6: for any calendar-valid current instant (with the year bounded so
that Python's `datetime` itself does not overflow), `create_auto_event`
yields an event titled "Auto Scheduled DR Test" of kind auto whose start
is the current instant plus 7 weeks (49 days) with the time of day fixed
to 09:00, whose end is exactly 2 hours (120 minutes) after the start,
whose start is strictly in the future, and whose field values pass the
full manual validation rule set with an empty error list. -/
theorem create_auto_event_spec (now : DateTime) (h : ValidDT now)
    (hy : now.year ≤ 9998) :
    (create_auto_event now).title = "Auto Scheduled DR Test" ∧
    (create_auto_event now).type = "auto" ∧
    (create_auto_event now).start = formatDT ((now.addDays 49).withHM 9 0) ∧
    (create_auto_event now).«end» =
      formatDT (((now.addDays 49).withHM 9 0).addHours 2) ∧
    parseDT (create_auto_event now).start = some ((now.addDays 49).withHM 9 0) ∧
    parseDT (create_auto_event now).«end» =
      some (((now.addDays 49).withHM 9 0).addHours 2) ∧
    ((now.addDays 49).withHM 9 0).hour = 9 ∧
    ((now.addDays 49).withHM 9 0).minute = 0 ∧
    (((now.addDays 49).withHM 9 0).addHours 2).key =
      ((now.addDays 49).withHM 9 0).key + 120 ∧
    now.key < ((now.addDays 49).withHM 9 0).key ∧
    validate_event_data now (eventToData (create_auto_event now)) false = [] := by
  obtain ⟨n1, n2, n3, n4, n5, n6, n7⟩ := h
  have h' : ValidDT now := ⟨n1, n2, n3, n4, n5, n6, n7⟩
  obtain ⟨hv49, hy49⟩ := addDays_le49 h' 49 (Nat.le_refl 49)
  have hdk49 := addDays49_dateKey_lt h'
  set D := now.addDays 49 with hD
  obtain ⟨v1, v2, v3, v4, v5, v6, v7⟩ := hv49
  have hvD : ValidDT D := ⟨v1, v2, v3, v4, v5, v6, v7⟩
  have hyearD : D.year ≤ 9999 := by
    rcases hy49 with h9 | ⟨h9, -⟩ <;> omega
  have hvS : ValidDT (D.withHM 9 0) := withHM_valid hvD (by omega) (by omega)
  have hSh : (D.withHM 9 0).hour = 9 := withHM_hour D 9 0
  have hSm : (D.withHM 9 0).minute = 0 := withHM_minute D 9 0
  have hSdk : (D.withHM 9 0).dateKey = D.dateKey := withHM_dateKey D 9 0
  have hE : (D.withHM 9 0).addHours 2 =
      ⟨D.year, D.month, D.day, 11, 0⟩ := by
    have haux := addHours_no_roll (d := D.withHM 9 0) (k := 2) (by omega)
    rw [haux, withHM_year, withHM_month, withHM_day, withHM_hour, withHM_minute]
  have hvE : ValidDT ((D.withHM 9 0).addHours 2) := by
    rw [hE]
    exact validDT_mk_of v1 v2 v3 v4 v5 (by omega) (by omega)
  have hyE : ((D.withHM 9 0).addHours 2).year ≤ 9999 := by
    rw [hE, mk_year]
    exact hyearD
  have hyearS : (D.withHM 9 0).year ≤ 9999 := by
    rw [withHM_year]
    exact hyearD
  have hpS : parseDT (formatDT (D.withHM 9 0)) = some (D.withHM 9 0) :=
    parseDT_formatDT hvS hyearS
  have hpE : parseDT (formatDT ((D.withHM 9 0).addHours 2)) =
      some ((D.withHM 9 0).addHours 2) := parseDT_formatDT hvE hyE
  have hkey : ((D.withHM 9 0).addHours 2).key = (D.withHM 9 0).key + 120 := by
    rw [hE, key_eq, key_eq, hSdk, hSh, hSm, mk_dateKey, mk_hour, mk_minute,
      dateKey_def D]
  have hnowlt : now.key < (D.withHM 9 0).key := by
    apply key_lt_of_dateKey_lt n6 n7
    rw [hSdk]
    exact hdk49
  have hval : validate_event_data now (eventToData (create_auto_event now)) false = [] := by
    have t1 : titleErrors (some "Auto Scheduled DR Test") = [] :=
      titleErrors_ok (by decide) (by decide)
    have t2 : startErrors now (some (formatDT (D.withHM 9 0))) = [] :=
      startErrors_ok hpS (by omega)
    have t3 : endErrors (some (formatDT (D.withHM 9 0)))
        (some (formatDT ((D.withHM 9 0).addHours 2))) = [] :=
      endErrors_ok hpS hpE (by omega)
    have t4 : descriptionErrors
        (some "Automatically scheduled Disaster Recovery Test - 7 weeks from creation date") = [] :=
      descriptionErrors_ok (by decide) (by decide)
    rw [validate_eq]
    show titleErrors (some "Auto Scheduled DR Test") ++
        startErrors now (some (formatDT (D.withHM 9 0))) ++
        endErrors (some (formatDT (D.withHM 9 0)))
          (some (formatDT ((D.withHM 9 0).addHours 2))) ++
        descriptionErrors
          (some "Automatically scheduled Disaster Recovery Test - 7 weeks from creation date") = []
    rw [t1, t2, t3, t4]
    rfl
  exact ⟨rfl, rfl, rfl, rfl, hpS, hpE, hSh, hSm, hkey, hnowlt, hval⟩

set_option maxRecDepth 8000 in
theorem create_auto_event_spec_witness :
    ValidDT ⟨2025, 3, 10, 14, 30⟩ ∧ (2025 : Nat) ≤ 9998 ∧
    (create_auto_event ⟨2025, 3, 10, 14, 30⟩).title = "Auto Scheduled DR Test" ∧
    (create_auto_event ⟨2025, 3, 10, 14, 30⟩).start = "2025-04-28T09:00" ∧
    (create_auto_event ⟨2025, 3, 10, 14, 30⟩).«end» = "2025-04-28T11:00" ∧
    validate_event_data ⟨2025, 3, 10, 14, 30⟩
      (eventToData (create_auto_event ⟨2025, 3, 10, 14, 30⟩)) false = [] :=
  ⟨by decide, by decide,
   (create_auto_event_spec ⟨2025, 3, 10, 14, 30⟩ (by decide) (by decide)).1,
   by decide, by decide,
   (create_auto_event_spec ⟨2025, 3, 10, 14, 30⟩ (by decide)
     (by decide)).2.2.2.2.2.2.2.2.2.2⟩
